import Mathlib

/-!
Verification of the realm-core sync client against its specification.
The definitions below are shallow embeddings of the C++ sources:
`src/realm/sync/noinst/client_impl_base.cpp` (Connection and Session
protocol machinery), the object-store `SyncSession` state machine, and
`src/realm/object-store/shared_realm.cpp` (asynchronous writes).
Versions and timestamps are modelled as `Nat`; the C++ integer types are
64-bit and the code never relies on wrap-around (overflow is detected and
saturated where it matters, which the embedding reproduces explicitly).
-/

namespace RealmSync

/-- Salted server version, as carried in `SyncProgress::latest_server_version`. -/
structure SaltedVersion where
  version : Nat
  salt : Int
  deriving Repr, DecidableEq

/-- Download cursor of `SyncProgress` (protocol.hpp): the server version reached
by downloads and the last client version integrated by the server at that point. -/
structure DownloadCursor where
  server_version : Nat
  last_integrated_client_version : Nat
  deriving Repr, DecidableEq

/-- Upload cursor of `SyncProgress`: last client version integrated by the server
and the server version that integration reached. -/
structure UploadCursor where
  client_version : Nat
  last_integrated_server_version : Nat
  deriving Repr, DecidableEq

/-- The `SyncProgress` triple of cursors exchanged in DOWNLOAD messages. -/
structure SyncProgress where
  latest_server_version : SaltedVersion
  download : DownloadCursor
  upload : UploadCursor
  deriving Repr, DecidableEq

/-- Client-side error codes used by the embedded fragment of the protocol
(subset of `realm::sync::ClientError`). -/
inductive ClientError
  | bad_message_order
  | bad_progress
  | bad_server_version
  | bad_client_version
  | bad_origin_file_ident
  | bad_timestamp
  deriving Repr, DecidableEq

/-- Embedding of `ClientImpl::Session::check_received_sync_progress` in
`client_impl_base.cpp`: `a` is the session's current `m_progress`, `b` the
progress of the incoming DOWNLOAD, `lastVersionAvailable` is
`m_last_version_available`.  Returns the error code (1..7) of the first
violated invariant, or `none` when the progress is acceptable. -/
def check_received_sync_progress (a b : SyncProgress) (lastVersionAvailable : Nat) :
    Option Nat :=
  if b.latest_server_version.version < a.latest_server_version.version then some 1
  else if b.upload.client_version < a.upload.client_version then some 2
  else if b.upload.client_version > lastVersionAvailable then some 3
  else if b.download.server_version < a.download.server_version then some 4
  else if b.download.server_version > b.latest_server_version.version then some 5
  else if b.download.last_integrated_client_version <
      a.download.last_integrated_client_version then some 6
  else if b.download.last_integrated_client_version > b.upload.client_version then some 7
  else none

/-- One inbound changeset header of a DOWNLOAD message
(`Transformer::RemoteChangeset`). -/
structure RemoteChangeset where
  remote_version : Nat
  last_integrated_local_version : Nat
  origin_file_ident : Nat
  deriving Repr, DecidableEq

/-- The `good_server_version` test of `Session::receive_download_message`:
strictly increasing server version, weakly increasing for FLX sessions. -/
def good_server_version (flx : Bool) (sv : Nat) (c : RemoteChangeset) : Bool :=
  if flx then decide (c.remote_version ≥ sv) else decide (c.remote_version > sv)

/-- The `good_client_version` test: last integrated client version weakly
increasing and bounded by the message's advertised value. -/
def good_client_version (licv msgLicv : Nat) (c : RemoteChangeset) : Bool :=
  decide (c.last_integrated_local_version ≥ licv) &&
    decide (c.last_integrated_local_version ≤ msgLicv)

/-- The `good_file_ident` test: positive origin file ident, different from the
session's own client file ident. -/
def good_file_ident (selfIdent : Nat) (c : RemoteChangeset) : Bool :=
  decide (c.origin_file_ident > 0) && decide (c.origin_file_ident ≠ selfIdent)

/-- Embedding of the per-changeset validation loop of
`Session::receive_download_message`: `flx` is `m_is_flx_sync_session`,
`selfIdent` is `m_client_file_ident.ident`, `msgLicv` is the message's
`progress.download.last_integrated_client_version`, and `sv`, `licv` are the
running cursors, seeded from `m_progress.download`.  Returns the error of the
first bad header, or `none` when every header is good. -/
def validate_changeset_headers (flx : Bool) (selfIdent msgLicv : Nat) :
    Nat → Nat → List RemoteChangeset → Option ClientError
  | _, _, [] => none
  | sv, licv, c :: rest =>
    if good_server_version flx sv c = false then some ClientError.bad_server_version
    else if good_client_version licv msgLicv c = false then some ClientError.bad_client_version
    else if good_file_ident selfIdent c = false then some ClientError.bad_origin_file_ident
    else validate_changeset_headers flx selfIdent msgLicv
      c.remote_version c.last_integrated_local_version rest

/-- Transport-level session lifecycle states (`ClientImpl::Session`). -/
inductive SessionState
  | Unactivated
  | Active
  | Deactivating
  | Deactivated
  deriving Repr, DecidableEq

/-- The part of the `ClientImpl::Session` state that the DOWNLOAD receive path
reads and writes. -/
structure DlSession where
  state : SessionState
  ident_message_sent : Bool
  error_message_received : Bool
  unbound_message_received : Bool
  progress : SyncProgress
  last_version_available : Nat
  is_flx_sync_session : Bool
  client_file_ident : Nat
  deriving Repr, DecidableEq

/-- Outcome of handling one DOWNLOAD message.  `closedWith e fatal` records a
call to `close_due_to_protocol_error` (always fatal in the source); `integrated`
carries the session after `on_changesets_integrated` updated `m_progress`. -/
inductive DownloadOutcome
  | ignored
  | closedWith (e : ClientError) (fatal : Bool)
  | integrated (s : DlSession)
  deriving Repr, DecidableEq

/-- Embedding of `Session::receive_download_message` (steady-state path): the
message is ignored unless the session is `Active`; it must be legal at this
time (IDENT sent, no ERROR and no UNBOUND received); the `SyncProgress` is
validated, then the changeset headers; on success the changesets are
integrated and `m_progress` becomes the message's progress
(`on_changesets_integrated`).  `close_due_to_protocol_error` marks the error
fatal (a sync protocol violation). -/
def receive_download_message (s : DlSession) (progress : SyncProgress)
    (changesets : List RemoteChangeset) : DownloadOutcome :=
  if s.state ≠ SessionState.Active then DownloadOutcome.ignored
  else if ¬(s.ident_message_sent = true ∧ s.error_message_received = false ∧
      s.unbound_message_received = false) then
    DownloadOutcome.closedWith ClientError.bad_message_order true
  else
    match check_received_sync_progress s.progress progress s.last_version_available with
    | some _ => DownloadOutcome.closedWith ClientError.bad_progress true
    | none =>
      match validate_changeset_headers s.is_flx_sync_session s.client_file_ident
          progress.download.last_integrated_client_version
          s.progress.download.server_version
          s.progress.download.last_integrated_client_version changesets with
      | some e => DownloadOutcome.closedWith e true
      | none => DownloadOutcome.integrated { s with progress := progress }

/-- Specification-side predicate: the incoming progress `b` violates at least
one of the seven monotonicity invariants relative to the current progress `a`,
exactly as the claim enumerates them. -/
def violates_progress_invariants (a b : SyncProgress) (lastVersionAvailable : Nat) : Prop :=
  b.latest_server_version.version < a.latest_server_version.version ∨
  b.upload.client_version < a.upload.client_version ∨
  b.upload.client_version > lastVersionAvailable ∨
  b.download.server_version < a.download.server_version ∨
  b.download.server_version > b.latest_server_version.version ∨
  b.download.last_integrated_client_version < a.download.last_integrated_client_version ∨
  b.download.last_integrated_client_version > b.upload.client_version

instance (a b : SyncProgress) (v : Nat) : Decidable (violates_progress_invariants a b v) := by
  unfold violates_progress_invariants
  infer_instance

/-- Pointwise order on the four progress cursors named by the claim. -/
def cursors_le (a b : SyncProgress) : Prop :=
  a.latest_server_version.version ≤ b.latest_server_version.version ∧
  a.upload.client_version ≤ b.upload.client_version ∧
  a.download.server_version ≤ b.download.server_version ∧
  a.download.last_integrated_client_version ≤ b.download.last_integrated_client_version

/-- Processing of a whole sequence of DOWNLOAD messages; `none` as soon as one
message is not integrated. -/
def process_downloads (s : DlSession) :
    List (SyncProgress × List RemoteChangeset) → Option DlSession
  | [] => some s
  | (p, cs) :: rest =>
    match receive_download_message s p cs with
    | DownloadOutcome.integrated s' => process_downloads s' rest
    | _ => none

end RealmSync

namespace RealmSync

theorem check_received_sync_progress_none_iff (a b : SyncProgress) (v : Nat) :
    check_received_sync_progress a b v = none ↔ ¬violates_progress_invariants a b v := by
  unfold check_received_sync_progress violates_progress_invariants
  split_ifs <;> simp_all

theorem check_received_sync_progress_some_violates {a b : SyncProgress} {v e : Nat}
    (h : check_received_sync_progress a b v = some e) :
    violates_progress_invariants a b v := by
  by_contra hv
  rw [← check_received_sync_progress_none_iff] at hv
  rw [hv] at h
  cases h

theorem check_received_sync_progress_none_cursors_le (a b : SyncProgress) (v : Nat)
    (h : check_received_sync_progress a b v = none) : cursors_le a b := by
  rw [check_received_sync_progress_none_iff] at h
  unfold violates_progress_invariants at h
  push_neg at h
  exact ⟨h.1, h.2.1, h.2.2.2.1, h.2.2.2.2.2.1⟩

theorem validate_changeset_headers_errors {flx : Bool} {selfIdent msgLicv sv licv : Nat}
    {cs : List RemoteChangeset} {e : ClientError}
    (h : validate_changeset_headers flx selfIdent msgLicv sv licv cs = some e) :
    e = ClientError.bad_server_version ∨ e = ClientError.bad_client_version ∨
      e = ClientError.bad_origin_file_ident := by
  induction cs generalizing sv licv with
  | nil => cases h
  | cons c rest ih =>
    unfold validate_changeset_headers at h
    split_ifs at h
    · cases h
      exact Or.inl rfl
    · cases h
      exact Or.inr (Or.inl rfl)
    · cases h
      exact Or.inr (Or.inr rfl)
    · exact ih h

theorem receive_download_message_integrated {s s' : DlSession} {p : SyncProgress}
    {cs : List RemoteChangeset}
    (h : receive_download_message s p cs = DownloadOutcome.integrated s') :
    s'.progress = p ∧ cursors_le s.progress p := by
  unfold receive_download_message at h
  split_ifs at h
  rcases hc : check_received_sync_progress s.progress p s.last_version_available with _ | e
  · rw [hc] at h
    rcases hv : validate_changeset_headers s.is_flx_sync_session s.client_file_ident
        p.download.last_integrated_client_version s.progress.download.server_version
        s.progress.download.last_integrated_client_version cs with _ | e'
    · rw [hv] at h
      simp only [DownloadOutcome.integrated.injEq] at h
      subst h
      exact ⟨rfl, check_received_sync_progress_none_cursors_le _ _ _ hc⟩
    · rw [hv] at h
      cases h
  · rw [hc] at h
    cases h

theorem process_downloads_chain (s : DlSession)
    (msgs : List (SyncProgress × List RemoteChangeset)) (s' : DlSession)
    (h : process_downloads s msgs = some s') :
    List.Chain' cursors_le (s.progress :: msgs.map Prod.fst) := by
  induction msgs generalizing s with
  | nil => simp
  | cons m rest ih =>
    rcases m with ⟨p, cs⟩
    unfold process_downloads at h
    cases hr : receive_download_message s p cs with
    | ignored =>
      rw [hr] at h
      simp at h
    | closedWith e f =>
      rw [hr] at h
      simp at h
    | integrated s₁ =>
      rw [hr] at h
      obtain ⟨hp, hle⟩ := receive_download_message_integrated hr
      have hchain := ih s₁ h
      rw [hp] at hchain
      simp only [List.map_cons]
      rw [List.chain'_cons]
      exact ⟨hle, hchain⟩

/-- Session used by the counterexample to C1: it is `Active` and its IDENT
message has been sent, but an ERROR message has already been received. -/
def c1cex_session : DlSession where
  state := SessionState.Active
  ident_message_sent := true
  error_message_received := true
  unbound_message_received := false
  progress := ⟨⟨5, 0⟩, ⟨0, 0⟩, ⟨0, 0⟩⟩
  last_version_available := 10
  is_flx_sync_session := false
  client_file_ident := 2

/-- Progress whose `latest_server_version.version` regresses from 5 to 4,
violating invariant 1. -/
def c1cex_progress : SyncProgress := ⟨⟨4, 0⟩, ⟨0, 0⟩, ⟨0, 0⟩⟩

/-- C1 counterexample: a DOWNLOAD received by an `Active` session after its
IDENT was sent, whose progress violates invariant 1, yet the connection is
closed with `bad_message_order` (an ERROR message had been received earlier),
not with `bad_progress`; so the claimed equivalence fails as stated. -/
theorem C1_counterexample :
    c1cex_session.state = SessionState.Active ∧
    c1cex_session.ident_message_sent = true ∧
    violates_progress_invariants c1cex_session.progress c1cex_progress
      c1cex_session.last_version_available ∧
    receive_download_message c1cex_session c1cex_progress [] =
      DownloadOutcome.closedWith ClientError.bad_message_order true ∧
    ∀ f, receive_download_message c1cex_session c1cex_progress [] ≠
      DownloadOutcome.closedWith ClientError.bad_progress f := by
  refine ⟨rfl, rfl, by decide, by decide, by decide⟩

/-- C1 (amended): for every DOWNLOAD message received by an `Active` session
after its IDENT message was sent and before any ERROR or UNBOUND message was
received, the connection is closed with the fatal error `bad_progress` if and
only if the message's `SyncProgress` violates one of the seven monotonicity
invariants; consequently each of the four cursors is weakly increasing across
any sequence of integrated DOWNLOAD messages of one session. -/
theorem C1_progress_monotonicity :
    (∀ (s : DlSession) (p : SyncProgress) (cs : List RemoteChangeset),
      s.state = SessionState.Active → s.ident_message_sent = true →
      s.error_message_received = false → s.unbound_message_received = false →
      (receive_download_message s p cs =
          DownloadOutcome.closedWith ClientError.bad_progress true ↔
        violates_progress_invariants s.progress p s.last_version_available)) ∧
    (∀ (s : DlSession) (msgs : List (SyncProgress × List RemoteChangeset))
        (s' : DlSession), process_downloads s msgs = some s' →
      List.Chain' cursors_le (s.progress :: msgs.map Prod.fst)) := by
  constructor
  · intro s p cs hA hI hE hU
    unfold receive_download_message
    rw [if_neg (by simp [hA]), if_neg (by simp [hI, hE, hU])]
    rcases hc : check_received_sync_progress s.progress p s.last_version_available with _ | e
    · rw [check_received_sync_progress_none_iff] at hc
      rcases hval : validate_changeset_headers s.is_flx_sync_session s.client_file_ident
          p.download.last_integrated_client_version s.progress.download.server_version
          s.progress.download.last_integrated_client_version cs with _ | e
      · exact iff_of_false (by simp) hc
      · refine iff_of_false (fun h => ?_) hc
        have he : e = ClientError.bad_progress := by simpa using h
        rcases validate_changeset_headers_errors hval with h' | h' | h' <;> simp_all
    · exact iff_of_true (by simp) (check_received_sync_progress_some_violates hc)
  · exact process_downloads_chain

/-- Witness for C1 at a concrete session and message. -/
def c1w_session : DlSession where
  state := SessionState.Active
  ident_message_sent := true
  error_message_received := false
  unbound_message_received := false
  progress := ⟨⟨5, 0⟩, ⟨3, 2⟩, ⟨4, 0⟩⟩
  last_version_available := 10
  is_flx_sync_session := false
  client_file_ident := 2

/-- Progress whose upload cursor (11) exceeds the last locally available client
version (10): invariant 3 is violated. -/
def c1w_progress : SyncProgress := ⟨⟨6, 0⟩, ⟨5, 4⟩, ⟨11, 0⟩⟩

theorem C1_progress_monotonicity_witness :
    receive_download_message c1w_session c1w_progress [] =
      DownloadOutcome.closedWith ClientError.bad_progress true ∧
    List.Chain' cursors_le (c1w_session.progress ::
      ([((⟨⟨6, 0⟩, ⟨4, 3⟩, ⟨5, 0⟩⟩ : SyncProgress), ([] : List RemoteChangeset))].map Prod.fst)) :=
  ⟨(C1_progress_monotonicity.1 c1w_session c1w_progress [] rfl rfl rfl rfl).mpr (by decide),
    C1_progress_monotonicity.2 c1w_session [((⟨⟨6, 0⟩, ⟨4, 3⟩, ⟨5, 0⟩⟩ : SyncProgress), [])]
      ⟨SessionState.Active, true, false, false, ⟨⟨6, 0⟩, ⟨4, 3⟩, ⟨5, 0⟩⟩, 10, false, 2⟩
      (by decide)⟩

end RealmSync

namespace RealmSync

/-- Specification-side reading of the claim for one changeset header: the
remote server version must be strictly greater than the running download
cursor (weakly greater for flexible-sync sessions), the last integrated client
version weakly increasing and at most the message's advertised bound, the
origin file ident strictly positive and different from the session's own; the
first violated condition names the error. -/
def claim_header_error (flx : Bool) (selfIdent msgLicv sv licv : Nat)
    (c : RemoteChangeset) : Option ClientError :=
  if ¬((flx = true ∧ sv ≤ c.remote_version) ∨ (flx = false ∧ sv < c.remote_version)) then
    some ClientError.bad_server_version
  else if ¬(licv ≤ c.last_integrated_local_version ∧
      c.last_integrated_local_version ≤ msgLicv) then
    some ClientError.bad_client_version
  else if ¬(0 < c.origin_file_ident ∧ c.origin_file_ident ≠ selfIdent) then
    some ClientError.bad_origin_file_ident
  else none

/-- Specification-side predicate: all changeset headers of a DOWNLOAD satisfy
the claim's conditions relative to the running cursors. -/
def HeadersGood (flx : Bool) (selfIdent msgLicv : Nat) :
    Nat → Nat → List RemoteChangeset → Prop
  | _, _, [] => True
  | sv, licv, c :: rest =>
    ((flx = true ∧ sv ≤ c.remote_version) ∨ (flx = false ∧ sv < c.remote_version)) ∧
    licv ≤ c.last_integrated_local_version ∧
    c.last_integrated_local_version ≤ msgLicv ∧
    0 < c.origin_file_ident ∧ c.origin_file_ident ≠ selfIdent ∧
    HeadersGood flx selfIdent msgLicv c.remote_version c.last_integrated_local_version rest

/-- C2: per-changeset header validation of an accepted DOWNLOAD message.
The validation loop accepts exactly the messages all of whose headers satisfy
the claim's conditions; on a changeset it checks, in order, server version,
client version and origin file ident, reporting the first violation as
`bad_server_version`, `bad_client_version` or `bad_origin_file_ident`
respectively and recursing on good headers; and when the first violation is
found, the connection is closed with that (fatal) error and no changeset of
the message is integrated. -/
theorem C2_header_validation :
    (∀ (flx : Bool) (selfIdent msgLicv sv licv : Nat) (cs : List RemoteChangeset),
      validate_changeset_headers flx selfIdent msgLicv sv licv cs = none ↔
        HeadersGood flx selfIdent msgLicv sv licv cs) ∧
    (∀ (flx : Bool) (selfIdent msgLicv sv licv : Nat) (c : RemoteChangeset)
        (rest : List RemoteChangeset),
      validate_changeset_headers flx selfIdent msgLicv sv licv (c :: rest) =
        (match claim_header_error flx selfIdent msgLicv sv licv c with
          | some e => some e
          | none => validate_changeset_headers flx selfIdent msgLicv
              c.remote_version c.last_integrated_local_version rest)) ∧
    (∀ (s : DlSession) (p : SyncProgress) (cs : List RemoteChangeset) (e : ClientError),
      s.state = SessionState.Active → s.ident_message_sent = true →
      s.error_message_received = false → s.unbound_message_received = false →
      check_received_sync_progress s.progress p s.last_version_available = none →
      validate_changeset_headers s.is_flx_sync_session s.client_file_ident
        p.download.last_integrated_client_version s.progress.download.server_version
        s.progress.download.last_integrated_client_version cs = some e →
      receive_download_message s p cs = DownloadOutcome.closedWith e true ∧
      (∀ s', receive_download_message s p cs ≠ DownloadOutcome.integrated s') ∧
      (e = ClientError.bad_server_version ∨ e = ClientError.bad_client_version ∨
        e = ClientError.bad_origin_file_ident)) := by
  refine ⟨?_, ?_, ?_⟩
  · intro flx selfIdent msgLicv sv licv cs
    induction cs generalizing sv licv with
    | nil => simp [validate_changeset_headers, HeadersGood]
    | cons c rest ih =>
      simp only [validate_changeset_headers, HeadersGood,
        good_server_version, good_client_version, good_file_ident]
      cases flx <;> split_ifs <;> simp_all <;> omega
  · intro flx selfIdent msgLicv sv licv c rest
    simp only [validate_changeset_headers, claim_header_error,
      good_server_version, good_client_version, good_file_ident]
    cases flx <;> split_ifs <;> simp_all <;> omega
  · intro s p cs e hA hI hE hU hchk hval
    have h1 : receive_download_message s p cs = DownloadOutcome.closedWith e true := by
      unfold receive_download_message
      rw [if_neg (by simp [hA]), if_neg (by simp [hI, hE, hU])]
      rw [hchk, hval]
    exact ⟨h1, fun s' => by simp [h1], validate_changeset_headers_errors hval⟩

/-- Changeset with a zero origin file ident, used by the C2 witness. -/
def c2w_changeset : RemoteChangeset := ⟨7, 3, 0⟩

theorem C2_header_validation_witness :
    receive_download_message c1w_session ⟨⟨6, 0⟩, ⟨6, 3⟩, ⟨5, 0⟩⟩ [c2w_changeset] =
      DownloadOutcome.closedWith ClientError.bad_origin_file_ident true ∧
    (∀ s', receive_download_message c1w_session ⟨⟨6, 0⟩, ⟨6, 3⟩, ⟨5, 0⟩⟩ [c2w_changeset] ≠
      DownloadOutcome.integrated s') ∧
    (ClientError.bad_origin_file_ident = ClientError.bad_server_version ∨
      ClientError.bad_origin_file_ident = ClientError.bad_client_version ∨
      ClientError.bad_origin_file_ident = ClientError.bad_origin_file_ident) :=
  C2_header_validation.2.2 c1w_session ⟨⟨6, 0⟩, ⟨6, 3⟩, ⟨5, 0⟩⟩ [c2w_changeset]
    ClientError.bad_origin_file_ident rfl rfl rfl rfl (by decide) (by decide)

end RealmSync

namespace RealmSync

/-- Connection termination reasons (`ConnectionTerminationReason`). -/
inductive TerminationReason
  | closed_voluntarily
  | read_or_write_error
  | pong_timeout
  | connect_operation_failed
  | http_response_says_nonfatal_error
  | sync_connect_timeout
  | server_said_try_again_later
  | ssl_certificate_rejected
  | ssl_protocol_violation
  | websocket_protocol_violation
  | http_response_says_fatal_error
  | bad_headers_in_http_response
  | sync_protocol_violation
  | server_said_do_not_reconnect
  | missing_protocol_feature
  deriving Repr, DecidableEq

/-- Client reconnect modes (`ReconnectMode`). -/
inductive ReconnectMode
  | normal
  | testing
  deriving Repr, DecidableEq

/-- Largest value of `ReconnectInfo::milliseconds_lim` (`int_fast64_t`, 64 bits
on the supported platforms). -/
def millisecondsLimMax : Nat := 2 ^ 63 - 1

/-- Modelled from the spec: `was_voluntary` is declared in
`client_impl_base.hpp`, which is not among the sources.  The spec calls only
`closed_voluntarily` a voluntary termination (reconnect delays "grow only on
repeated failures" for the involuntary ones); it is read exclusively by the
testing reconnect mode. -/
def was_voluntary : TerminationReason → Bool
  | TerminationReason.closed_voluntarily => true
  | _ => false

/-- Per-endpoint reconnect delay state (`ClientImpl::ReconnectInfo`).  The
server-provided resumption-delay backoff state is abstracted to the value of
its `delay_interval()`. -/
structure ReconnectInfo where
  reason : Option TerminationReason
  time_point : Nat
  delay : Nat
  scheduled_reset : Bool
  try_again_delay_interval : Nat
  deriving Repr, DecidableEq

/-- Modelled from the spec: `ReconnectInfo::reset()` is declared in
`client_impl_base.hpp`, which is not among the sources.  Per the spec's
description of `ReconnectInfo` and of `cancel_reconnect_delay()` ("does not
reset the delay immediately", it merely schedules the reset), the deferred
reset returns the per-endpoint delay state to its initial value: no recorded
termination reason, zero expiration time point, zero last delay, and a cleared
`scheduled_reset` flag. -/
def ReconnectInfo.reset (info : ReconnectInfo) : ReconnectInfo :=
  { info with reason := none, time_point := 0, delay := 0, scheduled_reset := false }

/-- The delay selected by the `switch` on the termination reason in
`Connection::initiate_reconnect_wait`, together with the
`record_delay_as_zero` flag.  Doubling saturates at `milliseconds_lim::max()`
(`util::int_multiply_with_overflow_detect`). -/
def reconnect_base_delay (reason : TerminationReason) (prevDelay tryAgainInterval : Nat) :
    Nat × Bool :=
  match reason with
  | TerminationReason.closed_voluntarily
  | TerminationReason.read_or_write_error
  | TerminationReason.pong_timeout => (1000, false)
  | TerminationReason.connect_operation_failed
  | TerminationReason.http_response_says_nonfatal_error
  | TerminationReason.sync_connect_timeout =>
    let d₁ := if 2 * prevDelay > millisecondsLimMax then millisecondsLimMax else 2 * prevDelay
    let d₂ := if d₁ < 1000 then 1000 else d₁
    let d₃ := if d₂ > 300000 then 300000 else d₂
    (d₃, false)
  | TerminationReason.server_said_try_again_later => (tryAgainInterval, true)
  | TerminationReason.ssl_certificate_rejected
  | TerminationReason.ssl_protocol_violation
  | TerminationReason.websocket_protocol_violation
  | TerminationReason.http_response_says_fatal_error
  | TerminationReason.bad_headers_in_http_response
  | TerminationReason.sync_protocol_violation
  | TerminationReason.server_said_do_not_reconnect
  | TerminationReason.missing_protocol_feature => (3600000, true)

/-- Result of `Connection::initiate_reconnect_wait`: the delay of the armed
reconnect timer (`none` when reconnection is delayed indefinitely) and the
updated `m_reconnect_info`. -/
structure ReconnectWaitResult where
  remaining_delay : Option Nat
  info : ReconnectInfo
  deriving Repr, DecidableEq

/-- Embedding of the delay computation of `Connection::initiate_reconnect_wait`.
`rand` models `std::uniform_int_distribution(0, b)`: the randomized deduction
drawn for an upper bound `b` (theorems hypothesize `rand b ≤ b`); `now` is
`monotonic_clock_now()`. -/
def initiate_reconnect_wait (mode : ReconnectMode) (info₀ : ReconnectInfo)
    (now : Nat) (rand : Nat → Nat) : ReconnectWaitResult :=
  let info := if info₀.scheduled_reset then info₀.reset else info₀
  match info.reason with
  | none =>
    if info.time_point = millisecondsLimMax then ⟨none, info⟩
    else if now < info.time_point then ⟨some (info.time_point - now), info⟩
    else ⟨some 0, info⟩
  | some reason =>
    if mode = ReconnectMode.testing then
      if was_voluntary reason then
        ⟨some 0, { info with reason := none, delay := 0 }⟩
      else
        ⟨none,
          { info with
              reason := none
              time_point := millisecondsLimMax
              delay := 0 }⟩
    else
      let base := reconnect_base_delay reason info.delay info.try_again_delay_interval
      let delay := base.1 - rand (base.1 / 4)
      let elapsed := now - info.time_point
      let remaining := if elapsed < delay then delay - elapsed else 0
      let tp := if info.time_point + delay > millisecondsLimMax then millisecondsLimMax
        else info.time_point + delay
      ⟨some remaining,
        { info with
            reason := none
            time_point := tp
            delay := if base.2 then 0 else delay }⟩

/-- Specification-side base delay, as the claim words it: the 1-second minimum
for voluntary closes, read/write errors and pong timeouts; twice the previous
delay floored at 1 second and capped at 5 minutes for failed connection
attempts; one hour for the fatal reasons.  `none` for the server-driven
try-again delay, which the claim does not cover. -/
def claim_base_delay (reason : TerminationReason) (prevDelay : Nat) : Option Nat :=
  match reason with
  | TerminationReason.closed_voluntarily
  | TerminationReason.read_or_write_error
  | TerminationReason.pong_timeout => some 1000
  | TerminationReason.connect_operation_failed
  | TerminationReason.http_response_says_nonfatal_error
  | TerminationReason.sync_connect_timeout =>
    some (min 300000 (max 1000 (2 * prevDelay)))
  | TerminationReason.server_said_try_again_later => none
  | TerminationReason.ssl_certificate_rejected
  | TerminationReason.ssl_protocol_violation
  | TerminationReason.websocket_protocol_violation
  | TerminationReason.http_response_says_fatal_error
  | TerminationReason.bad_headers_in_http_response
  | TerminationReason.sync_protocol_violation
  | TerminationReason.server_said_do_not_reconnect
  | TerminationReason.missing_protocol_feature => some 3600000

/-- C3: in normal reconnect mode, after a disconnect with a recorded
termination reason covered by the claim, the base delay is exactly the claim's
`base_delay_for(C)` (1 s minimum, doubling floored at 1 s and capped at 5 min,
or one hour), a uniformly random deduction of at most one quarter of the base
delay is subtracted, the elapsed time is deducted, and the scheduled delay `d`
satisfies `0.75 * base - elapsed ≤ d ≤ base` (the lower bound stated
multiplied by 4). -/
theorem C3_reconnect_delay_bounds :
    ∀ (info : ReconnectInfo) (now : Nat) (rand : Nat → Nat) (r : TerminationReason)
      (base : Nat),
      info.reason = some r → info.scheduled_reset = false →
      info.time_point ≤ now → (∀ b, rand b ≤ b) →
      claim_base_delay r info.delay = some base →
      (reconnect_base_delay r info.delay info.try_again_delay_interval).1 = base ∧
      ∃ d, (initiate_reconnect_wait ReconnectMode.normal info now rand).remaining_delay =
          some d ∧
        d ≤ base ∧ 3 * base ≤ 4 * d + 4 * (now - info.time_point) := by
  intro info now rand r base hr hsr htp hrand hbase
  have hcode : (reconnect_base_delay r info.delay info.try_again_delay_interval).1 = base := by
    cases r <;> simp [claim_base_delay] at hbase <;>
      simp [reconnect_base_delay, millisecondsLimMax] <;> (try split_ifs) <;> omega
  refine ⟨hcode, ?_⟩
  have hd4 : base / 4 * 4 ≤ base := Nat.div_mul_le_self base 4
  have hrand4 : rand (base / 4) ≤ base / 4 := hrand (base / 4)
  unfold initiate_reconnect_wait
  rw [hsr]
  simp only [if_false, Bool.false_eq_true, ite_false, hr]
  have hnorm : ¬(ReconnectMode.normal = ReconnectMode.testing) := by decide
  rw [if_neg hnorm]
  refine ⟨_, rfl, ?_, ?_⟩ <;> rw [hcode] <;> split_ifs <;> omega

theorem C3_reconnect_delay_bounds_witness :
    (reconnect_base_delay TerminationReason.pong_timeout 0 0).1 = 1000 ∧
    ∃ d, (initiate_reconnect_wait ReconnectMode.normal
        ⟨some TerminationReason.pong_timeout, 5, 0, false, 0⟩ 5 (fun b => b)).remaining_delay =
        some d ∧ d ≤ 1000 ∧ 3 * 1000 ≤ 4 * d + 4 * (5 - 5) :=
  C3_reconnect_delay_bounds ⟨some TerminationReason.pong_timeout, 5, 0, false, 0⟩ 5
    (fun b => b) TerminationReason.pong_timeout 1000 rfl rfl (by decide)
    (fun b => Nat.le_refl b) (by decide)

end RealmSync

namespace RealmSync

/-- Connection states (`ConnectionState` in `client_impl_base.hpp`): the only
cycle is disconnected → connecting → connected → disconnected. -/
inductive ConnectionState
  | connecting
  | connected
  | disconnected
  deriving Repr, DecidableEq

/-- The part of `ClientImpl::Connection` that the reconnect-delay and
heartbeat machinery reads and writes. -/
structure ConnModel where
  reconnect_mode : ReconnectMode
  state : ConnectionState
  reconnect_delay_in_progress : Bool
  nonzero_reconnect_delay : Bool
  reconnect_info : ReconnectInfo
  ping_delay_in_progress : Bool
  waiting_for_pong : Bool
  send_ping : Bool
  minimize_next_ping_delay : Bool
  ping_after_scheduled_reset : Bool
  ping_sent : Bool
  last_ping_sent_at : Nat
  previous_ping_rtt : Nat
  pong_wait_started_at : Nat
  ping_keepalive_period : Nat
  deriving Repr, DecidableEq

/-- `Connection::initiate_reconnect_wait` on the whole connection: computes the
delay, stores the updated `m_reconnect_info`, and marks the reconnect delay as
being in progress; the second component is the armed timer delay (`none` for
an infinite wait). -/
def conn_initiate_reconnect_wait (s : ConnModel) (now : Nat) (rand : Nat → Nat) :
    ConnModel × Option Nat :=
  let r := initiate_reconnect_wait s.reconnect_mode s.reconnect_info now rand
  ({ s with
      reconnect_info := r.info
      reconnect_delay_in_progress := true
      nonzero_reconnect_delay :=
        match r.remaining_delay with
        | none => true
        | some d => decide (d > 0) },
    r.remaining_delay)

/-- Embedding of `Connection::initiate_ping_delay`: computes the delay until
the next PING (with the randomized deduction `rand` and the deduction of the
time spent waiting for the previous PONG) and arms the heartbeat timer. -/
def initiate_ping_delay (s : ConnModel) (now : Nat) (rand : Nat → Nat) :
    ConnModel × Nat :=
  let delay :=
    if ¬s.minimize_next_ping_delay then
      let d := s.ping_keepalive_period
      let maxDeduction := if s.ping_sent then d / 10 else d
      let d' := d - rand maxDeduction
      let spent := now - s.pong_wait_started_at
      if spent < d' then d' - spent else 0
    else 0
  ({ s with minimize_next_ping_delay := false, ping_delay_in_progress := true }, delay)

/-- Embedding of `Connection::schedule_urgent_ping`: if a ping delay is in
progress it is restarted minimized; otherwise, unless a PING is already due,
the next ping delay is marked for minimization. -/
def schedule_urgent_ping (s : ConnModel) (now : Nat) (rand : Nat → Nat) : ConnModel :=
  if s.ping_delay_in_progress then
    (initiate_ping_delay
      { s with ping_delay_in_progress := false, minimize_next_ping_delay := true }
      now rand).1
  else if ¬s.send_ping then { s with minimize_next_ping_delay := true }
  else s

/-- Embedding of `Connection::cancel_reconnect_delay`.  The second component
reports the timer delay of the immediately re-initiated reconnect wait, when
one happens (first branch only).  In the second branch the reconnect-delay
state is not reset: only `m_scheduled_reset` is raised,
`m_ping_after_scheduled_reset_of_reconnect_info` is cleared, and an urgent
PING is scheduled. -/
def cancel_reconnect_delay (s : ConnModel) (now : Nat) (rand : Nat → Nat) :
    ConnModel × Option (Option Nat) :=
  if s.reconnect_delay_in_progress then
    let s' := { s with
      reconnect_delay_in_progress := false
      reconnect_info := s.reconnect_info.reset }
    let r := conn_initiate_reconnect_wait s' now rand
    (r.1, some r.2)
  else if s.state ≠ ConnectionState.disconnected then
    let s' := { s with
      reconnect_info := { s.reconnect_info with scheduled_reset := true }
      ping_after_scheduled_reset := false }
    (schedule_urgent_ping s' now rand, none)
  else (s, none)

/-- Embedding of the state effects of `Connection::send_ping`: the pending-PING
flag is dropped, `m_ping_after_scheduled_reset_of_reconnect_info` is raised
when a reset is scheduled, and the send timestamp is recorded. -/
def conn_send_ping (s : ConnModel) (now : Nat) : ConnModel :=
  { s with
      send_ping := false
      ping_after_scheduled_reset :=
        if s.reconnect_info.scheduled_reset then true else s.ping_after_scheduled_reset
      last_ping_sent_at := now
      ping_sent := true }

/-- Outcome of `Connection::receive_pong`: a protocol-error close (always
fatal) or acceptance with the measured round-trip time and the delay armed for
the next PING. -/
inductive PongOutcome
  | closed (e : ClientError) (fatal : Bool)
  | accepted (s : ConnModel) (rtt : Nat) (nextPingDelay : Nat)
  deriving Repr, DecidableEq

/-- Embedding of `Connection::receive_pong`. -/
def receive_pong (s : ConnModel) (timestamp now : Nat) (rand : Nat → Nat) :
    PongOutcome :=
  if ¬(s.waiting_for_pong = true ∧ s.send_ping = false) then
    PongOutcome.closed ClientError.bad_message_order true
  else if timestamp ≠ s.last_ping_sent_at then
    PongOutcome.closed ClientError.bad_timestamp true
  else
    let rtt := now - timestamp
    let s₁ := { s with previous_ping_rtt := rtt }
    let s₂ :=
      if s₁.ping_after_scheduled_reset then
        { s₁ with
            ping_after_scheduled_reset := false
            reconnect_info := { s₁.reconnect_info with scheduled_reset := false } }
      else s₁
    let s₃ := { s₂ with waiting_for_pong := false }
    let r := initiate_ping_delay s₃ now rand
    PongOutcome.accepted r.1 rtt r.2

/-- Embedding of a disconnect: the closing handler records the termination
reason in `m_reconnect_info.m_reason`, then `Connection::disconnect` clears the
heartbeat state (including `m_ping_after_scheduled_reset_of_reconnect_info`),
moves to `disconnected` and initiates the next reconnect wait.  The second
component is the armed reconnect timer delay. -/
def connection_disconnect (s : ConnModel) (reason : TerminationReason) (now : Nat)
    (rand : Nat → Nat) : ConnModel × Option Nat :=
  let s₁ := { s with
    reconnect_info := { s.reconnect_info with reason := some reason } }
  let s₂ := { s₁ with
    state := ConnectionState.disconnected
    ping_delay_in_progress := false
    waiting_for_pong := false
    send_ping := false
    minimize_next_ping_delay := false
    ping_after_scheduled_reset := false
    ping_sent := false
    previous_ping_rtt := 0 }
  conn_initiate_reconnect_wait s₂ now rand

theorem schedule_urgent_ping_reconnect_info (s : ConnModel) (now : Nat)
    (rand : Nat → Nat) :
    (schedule_urgent_ping s now rand).reconnect_info = s.reconnect_info := by
  unfold schedule_urgent_ping initiate_ping_delay
  split_ifs <;> rfl

theorem schedule_urgent_ping_ping_after (s : ConnModel) (now : Nat)
    (rand : Nat → Nat) :
    (schedule_urgent_ping s now rand).ping_after_scheduled_reset =
      s.ping_after_scheduled_reset := by
  unfold schedule_urgent_ping initiate_ping_delay
  split_ifs <;> rfl

end RealmSync

namespace RealmSync

/-- A connected connection with a previously recorded reconnect-delay state
(last delay 2000 ms, delay started at time point 100), used by the C4
counterexample. -/
def c4cex_conn : ConnModel where
  reconnect_mode := ReconnectMode.normal
  state := ConnectionState.connected
  reconnect_delay_in_progress := false
  nonzero_reconnect_delay := false
  reconnect_info := ⟨none, 100, 2000, false, 0⟩
  ping_delay_in_progress := false
  waiting_for_pong := true
  send_ping := false
  minimize_next_ping_delay := false
  ping_after_scheduled_reset := false
  ping_sent := true
  last_ping_sent_at := 50
  previous_ping_rtt := 10
  pong_wait_started_at := 60
  ping_keepalive_period := 60000

/-- C4 counterexample: after `cancel_reconnect_delay` on the established
connection `c4cex_conn`, a disconnect (reason `connect_operation_failed`) that
occurs before any PONG performs the deferred reset inside the next
`initiate_reconnect_wait` and schedules the reconnect with zero delay, whereas
the delay computed from the previously recorded state (doubling the recorded
2000 ms) is 4000 ms: the next reconnect delay is not computed from the
previously recorded state. -/
theorem C4_counterexample :
    (connection_disconnect (cancel_reconnect_delay c4cex_conn 100 (fun _ => 0)).1
        TerminationReason.connect_operation_failed 100 (fun _ => 0)).2 = some 0 ∧
    (initiate_reconnect_wait ReconnectMode.normal
        { c4cex_conn.reconnect_info with
            reason := some TerminationReason.connect_operation_failed }
        100 (fun _ => 0)).remaining_delay = some 4000 ∧
    (0 : Nat) ≠ 4000 := by
  refine ⟨by decide, by decide, by decide⟩

/-- C4 (amended): `cancel_reconnect_delay` on a connection that is not
disconnected never resets the reconnect-delay state at that moment — it only
raises `scheduled_reset`, clears the ping-after flag and schedules an urgent
PING; `send_ping` raises the ping-after flag exactly when a reset is
scheduled; a PONG accepted while the ping-after flag is raised (one answering
a PING sent after the flag was set) clears `scheduled_reset`, and an accepted
PONG without it leaves the flag alone; and a disconnect that happens while the
reset is still scheduled performs the deferred reset when the next reconnect
wait is initiated, discarding the recorded delay state and scheduling the
reconnect without delay. -/
theorem C4_cancel_reconnect_deferral :
    (∀ (s : ConnModel) (now : Nat) (rand : Nat → Nat),
      s.state ≠ ConnectionState.disconnected → s.reconnect_delay_in_progress = false →
      cancel_reconnect_delay s now rand =
        (schedule_urgent_ping
          { s with
              reconnect_info := { s.reconnect_info with scheduled_reset := true }
              ping_after_scheduled_reset := false } now rand, none) ∧
      (cancel_reconnect_delay s now rand).1.reconnect_info =
        { s.reconnect_info with scheduled_reset := true } ∧
      (cancel_reconnect_delay s now rand).1.ping_after_scheduled_reset = false) ∧
    (∀ (s : ConnModel) (now : Nat),
      (conn_send_ping s now).ping_after_scheduled_reset =
        (if s.reconnect_info.scheduled_reset then true else s.ping_after_scheduled_reset)) ∧
    (∀ (s s' : ConnModel) (t now rtt d : Nat) (rand : Nat → Nat),
      receive_pong s t now rand = PongOutcome.accepted s' rtt d →
      s'.reconnect_info.scheduled_reset =
        (if s.ping_after_scheduled_reset then false else s.reconnect_info.scheduled_reset) ∧
      s'.ping_after_scheduled_reset = false ∧
      s'.reconnect_info.time_point = s.reconnect_info.time_point ∧
      s'.reconnect_info.delay = s.reconnect_info.delay) ∧
    (∀ (s : ConnModel) (reason : TerminationReason) (now : Nat) (rand : Nat → Nat),
      s.reconnect_info.scheduled_reset = true →
      (connection_disconnect s reason now rand).2 = some 0 ∧
      (connection_disconnect s reason now rand).1.reconnect_info =
        ReconnectInfo.reset
          { s.reconnect_info with reason := some reason }) := by
  refine ⟨?_, ?_, ?_, ?_⟩
  · intro s now rand hstate hdel
    have h1 : cancel_reconnect_delay s now rand =
        (schedule_urgent_ping
          { s with
              reconnect_info := { s.reconnect_info with scheduled_reset := true }
              ping_after_scheduled_reset := false } now rand, none) := by
      unfold cancel_reconnect_delay
      rw [hdel]
      simp only [Bool.false_eq_true, if_false, if_pos hstate]
    refine ⟨h1, ?_, ?_⟩
    · rw [h1]
      exact schedule_urgent_ping_reconnect_info _ _ _
    · rw [h1]
      exact schedule_urgent_ping_ping_after _ _ _
  · intro s now
    rfl
  · intro s s' t now rtt d rand h
    unfold receive_pong at h
    split_ifs at h with h1 h2
    rcases h3 : s.ping_after_scheduled_reset
    · unfold initiate_ping_delay at h
      simp only [h3, Bool.false_eq_true, if_false, PongOutcome.accepted.injEq] at h
      obtain ⟨hs, -, -⟩ := h
      subst hs
      simp [h3]
    · unfold initiate_ping_delay at h
      simp only [h3, if_true, PongOutcome.accepted.injEq] at h
      obtain ⟨hs, -, -⟩ := h
      subst hs
      simp [h3]
  · intro s reason now rand hsr
    unfold connection_disconnect conn_initiate_reconnect_wait initiate_reconnect_wait
    simp only [hsr, ReconnectInfo.reset]
    constructor
    · simp [millisecondsLimMax]
    · simp [millisecondsLimMax]

/-- Connected connection used by the C4 witness. -/
def c4w_conn : ConnModel where
  reconnect_mode := ReconnectMode.normal
  state := ConnectionState.connected
  reconnect_delay_in_progress := false
  nonzero_reconnect_delay := false
  reconnect_info := ⟨none, 7, 1500, true, 0⟩
  ping_delay_in_progress := false
  waiting_for_pong := false
  send_ping := true
  minimize_next_ping_delay := false
  ping_after_scheduled_reset := false
  ping_sent := false
  last_ping_sent_at := 0
  previous_ping_rtt := 0
  pong_wait_started_at := 0
  ping_keepalive_period := 60000

theorem C4_cancel_reconnect_deferral_witness :
    ((cancel_reconnect_delay c4cex_conn 100 (fun _ => 0)).1.reconnect_info =
      { c4cex_conn.reconnect_info with scheduled_reset := true } ∧
      (cancel_reconnect_delay c4cex_conn 100 (fun _ => 0)).1.ping_after_scheduled_reset =
        false) ∧
    ((connection_disconnect c4w_conn TerminationReason.read_or_write_error 9
        (fun _ => 0)).2 = some 0 ∧
      (connection_disconnect c4w_conn TerminationReason.read_or_write_error 9
          (fun _ => 0)).1.reconnect_info =
        ReconnectInfo.reset
          { c4w_conn.reconnect_info with
              reason := some TerminationReason.read_or_write_error }) :=
  ⟨((C4_cancel_reconnect_deferral.1 c4cex_conn 100 (fun _ => 0) (by decide) rfl)).2,
    C4_cancel_reconnect_deferral.2.2.2 c4w_conn TerminationReason.read_or_write_error 9
      (fun _ => 0) rfl⟩

/-- C5: reception of a PONG while a PONG is awaited (the PING was sent and no
further PING is pending) fatally closes the connection with `bad_timestamp`
when the echoed timestamp differs from the last PING's send time; on a match
the round-trip time `now - timestamp` is stored as `m_previous_ping_rtt` and
the next ping delay is initiated; a PONG received when none is awaited closes
the connection with `bad_message_order`. -/
theorem C5_pong_validation :
    (∀ (s : ConnModel) (t now : Nat) (rand : Nat → Nat),
      s.waiting_for_pong = true → s.send_ping = false → t ≠ s.last_ping_sent_at →
      receive_pong s t now rand = PongOutcome.closed ClientError.bad_timestamp true) ∧
    (∀ (s : ConnModel) (t now : Nat) (rand : Nat → Nat),
      s.waiting_for_pong = true → s.send_ping = false → t = s.last_ping_sent_at →
      ∃ s' d, receive_pong s t now rand = PongOutcome.accepted s' (now - t) d ∧
        s'.previous_ping_rtt = now - t ∧ s'.waiting_for_pong = false ∧
        s'.ping_delay_in_progress = true) ∧
    (∀ (s : ConnModel) (t now : Nat) (rand : Nat → Nat),
      ¬(s.waiting_for_pong = true ∧ s.send_ping = false) →
      receive_pong s t now rand = PongOutcome.closed ClientError.bad_message_order true) := by
  refine ⟨?_, ?_, ?_⟩
  · intro s t now rand hw hs ht
    unfold receive_pong
    rw [if_neg (by simp [hw, hs]), if_pos ht]
  · intro s t now rand hw hs ht
    unfold receive_pong
    rw [if_neg (by simp [hw, hs]), if_neg (by simp [ht])]
    refine ⟨_, _, rfl, ?_, ?_, ?_⟩ <;> (rw [initiate_ping_delay]; try split_ifs) <;> rfl
  · intro s t now rand hlegal
    unfold receive_pong
    rw [if_pos hlegal]

theorem C5_pong_validation_witness :
    receive_pong c4cex_conn 49 130 (fun _ => 0) =
      PongOutcome.closed ClientError.bad_timestamp true ∧
    (∃ s' d, receive_pong c4cex_conn 50 130 (fun _ => 0) =
        PongOutcome.accepted s' (130 - 50) d ∧
      s'.previous_ping_rtt = 130 - 50 ∧ s'.waiting_for_pong = false ∧
      s'.ping_delay_in_progress = true) ∧
    receive_pong c4w_conn 0 130 (fun _ => 0) =
      PongOutcome.closed ClientError.bad_message_order true :=
  ⟨C5_pong_validation.1 c4cex_conn 49 130 (fun _ => 0) rfl rfl (by decide),
    C5_pong_validation.2.1 c4cex_conn 50 130 (fun _ => 0) rfl rfl rfl,
    C5_pong_validation.2.2 c4w_conn 0 130 (fun _ => 0) (by decide)⟩

end RealmSync

namespace RealmSync

/-- Pending compensating-write error: the fields of `ProtocolErrorInfo` read by
the deferral logic (`compensating_write_server_version`) plus an identifying
tag standing for the rest of the error. -/
structure CompensatingWriteError where
  compensating_write_server_version : Nat
  tag : Nat
  deriving Repr, DecidableEq

/-- A changeset as seen by `Session::integrate_changesets`
(`realm::sync::Changeset`): only its server `version` matters here. -/
structure ParsedChangeset where
  version : Nat
  deriving Repr, DecidableEq

/-- Ordering of pending compensating-write errors by server version. -/
def cwErrorLE (a b : CompensatingWriteError) : Prop :=
  a.compensating_write_server_version ≤ b.compensating_write_server_version

instance : DecidableRel cwErrorLE := fun a b =>
  inferInstanceAs
    (Decidable (a.compensating_write_server_version ≤ b.compensating_write_server_version))

/-- Embedding of `Session::gather_pending_compensating_writes`: pops queued
errors from the front while their server version is at most the version of the
batch's last changeset; first component the delivered errors, second the
remaining queue. -/
def gather_pending_compensating_writes (lastVersion : Nat) :
    List CompensatingWriteError →
      List CompensatingWriteError × List CompensatingWriteError
  | [] => ([], [])
  | e :: rest =>
    if e.compensating_write_server_version ≤ lastVersion then
      let r := gather_pending_compensating_writes lastVersion rest
      (e :: r.1, r.2)
    else ([], e :: rest)

/-- The deliveries performed by `Session::integrate_changesets`: with an empty
batch no compensating-write error is gathered (the early return of
`gather_pending_compensating_writes`); otherwise the errors gathered for
`changesets.back().version` are reported to the application, in queue order,
alongside the batch. -/
def integrate_changesets_deliveries (queue : List CompensatingWriteError)
    (changesets : List ParsedChangeset) :
    List CompensatingWriteError × List CompensatingWriteError :=
  match changesets.getLast? with
  | none => ([], queue)
  | some last => gather_pending_compensating_writes last.version queue

theorem gather_append (v : Nat) (q : List CompensatingWriteError) :
    (gather_pending_compensating_writes v q).1 ++
      (gather_pending_compensating_writes v q).2 = q := by
  induction q with
  | nil => rfl
  | cons e rest ih =>
    unfold gather_pending_compensating_writes
    split_ifs <;> simp [ih]

theorem gather_eq_filter (v : Nat) (q : List CompensatingWriteError)
    (h : q.Sorted cwErrorLE) :
    gather_pending_compensating_writes v q =
      (q.filter (fun e => decide (e.compensating_write_server_version ≤ v)),
        q.filter (fun e => decide (v < e.compensating_write_server_version))) := by
  induction q with
  | nil => rfl
  | cons e rest ih =>
    rw [List.sorted_cons] at h
    obtain ⟨hall, hrest⟩ := h
    unfold gather_pending_compensating_writes
    split_ifs with hle
    · have hnlt : ¬v < e.compensating_write_server_version := by omega
      simp [List.filter_cons, hle, hnlt, ih hrest]
    · have hlt : v < e.compensating_write_server_version := by omega
      have h1 : rest.filter
          (fun x => decide (x.compensating_write_server_version ≤ v)) = [] := by
        rw [List.filter_eq_nil_iff]
        intro a ha
        have := hall a ha
        unfold cwErrorLE at this
        simp only [decide_eq_true_eq]
        omega
      have h2 : rest.filter
          (fun x => decide (v < x.compensating_write_server_version)) = rest := by
        rw [List.filter_eq_self]
        intro a ha
        have := hall a ha
        unfold cwErrorLE at this
        simp only [decide_eq_true_eq]
        omega
      simp [List.filter_cons, hle, hlt, h1, h2]

theorem integrate_deliveries_none {queue : List CompensatingWriteError}
    {changesets : List ParsedChangeset} (hl : changesets.getLast? = none) :
    integrate_changesets_deliveries queue changesets = ([], queue) := by
  unfold integrate_changesets_deliveries
  rw [hl]

theorem integrate_deliveries_last {queue : List CompensatingWriteError}
    {changesets : List ParsedChangeset} {last : ParsedChangeset}
    (hl : changesets.getLast? = some last) :
    integrate_changesets_deliveries queue changesets =
      gather_pending_compensating_writes last.version queue := by
  unfold integrate_changesets_deliveries
  rw [hl]

/-- C6: with the pending queue sorted by server version (the invariant the
source asserts), a compensating-write error is delivered only alongside a
batch whose last changeset reaches its server version; when a nonempty batch
is integrated, exactly the queued errors with server version at most the
batch's last changeset version are delivered; deliveries preserve queue order
(delivered ++ remaining = queue) and are ascending in server version. -/
theorem C6_compensating_write_deferral :
    ∀ (queue : List CompensatingWriteError) (changesets : List ParsedChangeset),
      queue.Sorted cwErrorLE →
      (∀ e, e ∈ (integrate_changesets_deliveries queue changesets).1 →
        ∃ last, changesets.getLast? = some last ∧
          e.compensating_write_server_version ≤ last.version) ∧
      (∀ last, changesets.getLast? = some last →
        (integrate_changesets_deliveries queue changesets).1 =
          queue.filter
            (fun e => decide (e.compensating_write_server_version ≤ last.version))) ∧
      (integrate_changesets_deliveries queue changesets).1 ++
        (integrate_changesets_deliveries queue changesets).2 = queue ∧
      (integrate_changesets_deliveries queue changesets).1.Sorted cwErrorLE := by
  intro queue changesets hsorted
  rcases hl : changesets.getLast? with _ | last
  · rw [integrate_deliveries_none hl]
    refine ⟨by simp, ?_, by simp, by simp⟩
    intro last' hlast'
    cases hlast'
  · rw [integrate_deliveries_last hl, gather_eq_filter last.version queue hsorted]
    refine ⟨?_, ?_, ?_, ?_⟩
    · intro e he
      refine ⟨last, rfl, ?_⟩
      simp only [List.mem_filter, decide_eq_true_eq] at he
      exact he.2
    · intro last' hlast'
      cases hlast'
      rfl
    · rw [← gather_eq_filter last.version queue hsorted]
      exact gather_append last.version queue
    · exact List.Pairwise.sublist (List.filter_sublist queue) hsorted

theorem C6_compensating_write_deferral_witness :
    (∀ e, e ∈ (integrate_changesets_deliveries
        [⟨3, 0⟩, ⟨5, 1⟩] [⟨4⟩]).1 →
      ∃ last, ([(⟨4⟩ : ParsedChangeset)].getLast? = some last ∧
        e.compensating_write_server_version ≤ last.version)) ∧
    (integrate_changesets_deliveries [⟨3, 0⟩, ⟨5, 1⟩] [⟨4⟩]).1 ++
      (integrate_changesets_deliveries [⟨3, 0⟩, ⟨5, 1⟩] [⟨4⟩]).2 =
      [⟨3, 0⟩, ⟨5, 1⟩] := by
  have h := C6_compensating_write_deferral [⟨3, 0⟩, ⟨5, 1⟩] [⟨4⟩] (by decide)
  exact ⟨fun e he => h.1 e he, h.2.2.1⟩

end RealmSync

namespace RealmSync

/-- Application-level session states (`SyncSession::State`). -/
inductive AppState
  | Active
  | Dying
  | Inactive
  | WaitingForAccessToken
  | Paused
  deriving Repr, DecidableEq

/-- Session stop policies (`SyncSessionStopPolicy`). -/
inductive StopPolicy
  | Immediately
  | LiveIndefinitely
  | AfterChangesUploaded
  deriving Repr, DecidableEq

/-- Error a queued completion handler is resolved with. -/
inductive CompletionError
  | operationAborted
  | status (code : Nat)
  deriving Repr, DecidableEq

/-- The part of object-store `SyncSession` state the lifecycle machinery reads
and writes: the application-level state, whether an underlying `sync::Session`
exists (`m_session`), and the queued completion callbacks
(`m_completion_callbacks`, by registration tag, in registration order). -/
structure AppSession where
  state : AppState
  has_session : Bool
  completion_callbacks : List Nat
  deriving Repr, DecidableEq

/-- Embedding of `SyncSession::do_become_inactive`: the completion-callback map
is swapped out, the underlying session dropped, and every queued handler is
invoked with `ec` (defaulted to `operation_aborted`).  The second component
lists the resolved handlers with the error each received. -/
def do_become_inactive (s : AppSession) (ec : Option CompletionError) :
    AppSession × List (Nat × CompletionError) :=
  ({ s with has_session := false, completion_callbacks := [] },
    s.completion_callbacks.map
      (fun tag => (tag, ec.getD CompletionError.operationAborted)))

/-- Embedding of `SyncSession::become_inactive`. -/
def become_inactive (s : AppSession) (ec : Option CompletionError) :
    AppSession × List (Nat × CompletionError) :=
  do_become_inactive { s with state := AppState.Inactive } ec

/-- Embedding of `SyncSession::become_paused`: moving out of `Inactive` is a
pure state change; any other origin also runs `do_become_inactive`. -/
def become_paused (s : AppSession) : AppSession × List (Nat × CompletionError) :=
  let s' := { s with state := AppState.Paused }
  if s.state = AppState.Inactive then (s', []) else do_become_inactive s' none

/-- Embedding of `SyncSession::become_active`: (re)creates the underlying
session when needed and re-registers all stored completion callbacks, which
remain pending. -/
def become_active (s : AppSession) : AppSession :=
  { s with state := AppState.Active, has_session := true }

/-- Embedding of `SyncSession::become_dying`: with no underlying session,
nothing can be uploaded, so the session becomes `Inactive` at once. -/
def become_dying (s : AppSession) : AppSession × List (Nat × CompletionError) :=
  let s' := { s with state := AppState.Dying }
  if s'.has_session = false then become_inactive s' none else (s', [])

/-- Embedding of `SyncSession::do_revive`: straight to `Active` unless the
access token needs a refresh first. -/
def do_revive (s : AppSession) (tokenRefreshRequired : Bool) : AppSession :=
  if tokenRefreshRequired = false then become_active s
  else { s with state := AppState.WaitingForAccessToken }

/-- Embedding of `SyncSession::close` (the locked overload). -/
def session_close (s : AppSession) (policy : StopPolicy) :
    AppSession × List (Nat × CompletionError) :=
  match s.state with
  | AppState.Active =>
    match policy with
    | StopPolicy.Immediately => become_inactive s none
    | StopPolicy.LiveIndefinitely => (s, [])
    | StopPolicy.AfterChangesUploaded => become_dying s
  | AppState.Dying => (s, [])
  | AppState.Paused => (s, [])
  | AppState.Inactive => (s, [])
  | AppState.WaitingForAccessToken => become_inactive s none

/-- Embedding of `SyncSession::force_close`. -/
def session_force_close (s : AppSession) : AppSession × List (Nat × CompletionError) :=
  match s.state with
  | AppState.Active => become_inactive s none
  | AppState.Dying => become_inactive s none
  | AppState.WaitingForAccessToken => become_inactive s none
  | AppState.Inactive => (s, [])
  | AppState.Paused => (s, [])

/-- Embedding of `SyncSession::pause`. -/
def session_pause (s : AppSession) : AppSession × List (Nat × CompletionError) :=
  match s.state with
  | AppState.Active => become_paused s
  | AppState.Dying => become_paused s
  | AppState.WaitingForAccessToken => become_paused s
  | AppState.Inactive => become_paused s
  | AppState.Paused => (s, [])

/-- Embedding of `SyncSession::resume`. -/
def session_resume (s : AppSession) (tokenRefreshRequired : Bool) : AppSession :=
  match s.state with
  | AppState.Active => s
  | AppState.WaitingForAccessToken => s
  | AppState.Paused => do_revive s tokenRefreshRequired
  | AppState.Dying => do_revive s tokenRefreshRequired
  | AppState.Inactive => do_revive s tokenRefreshRequired

/-- Embedding of `SyncSession::revive_if_needed`: unlike `resume`, it refuses
to leave the `Paused` state. -/
def revive_if_needed (s : AppSession) (tokenRefreshRequired : Bool) : AppSession :=
  match s.state with
  | AppState.Active => s
  | AppState.WaitingForAccessToken => s
  | AppState.Paused => s
  | AppState.Dying => do_revive s tokenRefreshRequired
  | AppState.Inactive => do_revive s tokenRefreshRequired

/-- Embedding of `SyncSession::restart_session`: if not paused, the state is
set to `Inactive` directly — without `do_become_inactive`, so that progress
completion waiters keep waiting — and `become_active` re-registers them. -/
def restart_session (s : AppSession) : AppSession :=
  if s.state = AppState.Paused then s
  else become_active { s with state := AppState.Inactive, has_session := false }

/-- The lifecycle operations quantified over by C8. -/
inductive SessionOp
  | op_pause
  | op_resume (tokenRefreshRequired : Bool)
  | op_close (policy : StopPolicy)
  | op_force_close
  | op_revive_if_needed (tokenRefreshRequired : Bool)
  deriving Repr, DecidableEq

/-- Dispatch of one lifecycle operation, discarding the resolved handlers. -/
def apply_session_op (s : AppSession) : SessionOp → AppSession
  | SessionOp.op_pause => (session_pause s).1
  | SessionOp.op_resume tok => session_resume s tok
  | SessionOp.op_close policy => (session_close s policy).1
  | SessionOp.op_force_close => (session_force_close s).1
  | SessionOp.op_revive_if_needed tok => revive_if_needed s tok

end RealmSync

namespace RealmSync

/-- C7 counterexample: closing an `Active` session (stop policy `Immediately`)
with one pending completion wait (tag 7) transitions to `Inactive` and
resolves that wait with `operation_aborted` — the wait does not survive the
transition. -/
theorem C7_counterexample :
    (session_close ⟨AppState.Active, true, [7]⟩ StopPolicy.Immediately).1.state =
      AppState.Inactive ∧
    (session_close ⟨AppState.Active, true, [7]⟩ StopPolicy.Immediately).2 =
      [(7, CompletionError.operationAborted)] ∧
    (session_close ⟨AppState.Active, true,
      [7]⟩ StopPolicy.Immediately).1.completion_callbacks = [] := by
  refine ⟨rfl, rfl, rfl⟩

/-- C7 (amended): the transition to `Inactive` itself resolves every pending
upload- or download-completion wait, each with `operation_aborted` (or the
explicitly supplied error); waits registered while the session is not `Active`
are kept and re-registered, still pending, when the session re-enters `Active`
via `become_active`; and `restart_session` moves through `Inactive` without
resolving any wait, re-registering them all. -/
theorem C7_completion_waits_canceled :
    (∀ (s : AppSession) (ec : Option CompletionError),
      s.state ≠ AppState.Inactive →
      (become_inactive s ec).1.state = AppState.Inactive ∧
      (become_inactive s ec).2 =
        s.completion_callbacks.map
          (fun tag => (tag, ec.getD CompletionError.operationAborted)) ∧
      (become_inactive s ec).1.completion_callbacks = []) ∧
    (∀ s : AppSession, s.state ≠ AppState.Active →
      (become_active s).state = AppState.Active ∧
      (become_active s).completion_callbacks = s.completion_callbacks) ∧
    (∀ s : AppSession, s.state ≠ AppState.Paused →
      (restart_session s).state = AppState.Active ∧
      (restart_session s).completion_callbacks = s.completion_callbacks) := by
  refine ⟨?_, ?_, ?_⟩
  · intro s ec h
    exact ⟨rfl, rfl, rfl⟩
  · intro s h
    exact ⟨rfl, rfl⟩
  · intro s h
    rw [restart_session, if_neg h]
    exact ⟨rfl, rfl⟩

theorem C7_completion_waits_canceled_witness :
    ((become_inactive ⟨AppState.Active, true, [3, 8]⟩ none).1.state =
        AppState.Inactive ∧
      (become_inactive ⟨AppState.Active, true, [3, 8]⟩ none).2 =
        ([3, 8].map (fun tag => (tag, CompletionError.operationAborted))) ∧
      (become_inactive ⟨AppState.Active, true, [3, 8]⟩ none).1.completion_callbacks =
        []) ∧
    ((restart_session ⟨AppState.Active, true, [3, 8]⟩).state = AppState.Active ∧
      (restart_session ⟨AppState.Active, true, [3, 8]⟩).completion_callbacks =
        [3, 8]) :=
  ⟨C7_completion_waits_canceled.1 ⟨AppState.Active, true, [3, 8]⟩ none (by decide),
    C7_completion_waits_canceled.2.2 ⟨AppState.Active, true, [3, 8]⟩ (by decide)⟩

/-- C8: `pause` moves any non-`Paused` session to `Paused`; `Paused` is sticky
under `close`, `force_close`, `revive_if_needed` and a second `pause` (all are
the identity there), and among the lifecycle operations only `resume` can
leave `Paused`; `close` on an `Active` session becomes `Inactive` under stop
policy `Immediately` and `Dying` under `AfterChangesUploaded` (when an
underlying session exists). -/
theorem C8_paused_is_sticky :
    (∀ s : AppSession, s.state ≠ AppState.Paused →
      (session_pause s).1.state = AppState.Paused) ∧
    (∀ s : AppSession, s.state = AppState.Paused →
      (session_pause s).1 = s ∧ (session_close s StopPolicy.Immediately).1 = s ∧
      (session_close s StopPolicy.LiveIndefinitely).1 = s ∧
      (session_close s StopPolicy.AfterChangesUploaded).1 = s ∧
      (session_force_close s).1 = s ∧
      (∀ tok, revive_if_needed s tok = s)) ∧
    (∀ (s : AppSession) (op : SessionOp), s.state = AppState.Paused →
      (apply_session_op s op).state ≠ AppState.Paused →
      ∃ tok, op = SessionOp.op_resume tok) ∧
    (∀ s : AppSession, s.state = AppState.Active →
      (session_close s StopPolicy.Immediately).1.state = AppState.Inactive ∧
      (s.has_session = true →
        (session_close s StopPolicy.AfterChangesUploaded).1.state = AppState.Dying)) := by
  refine ⟨?_, ?_, ?_, ?_⟩
  · intro s h
    rcases s with ⟨st, hs, cbs⟩
    cases st <;> first
      | exact absurd rfl h
      | rfl
  · intro s h
    rcases s with ⟨st, hs, cbs⟩
    cases h
    exact ⟨rfl, rfl, rfl, rfl, rfl, fun tok => rfl⟩
  · intro s op h hmove
    rcases s with ⟨st, hs, cbs⟩
    cases h
    cases op with
    | op_resume tok => exact ⟨tok, rfl⟩
    | op_pause => exact absurd rfl hmove
    | op_close policy => exact absurd rfl hmove
    | op_force_close => exact absurd rfl hmove
    | op_revive_if_needed tok => exact absurd rfl hmove
  · intro s h
    rcases s with ⟨st, hs, cbs⟩
    cases h
    refine ⟨rfl, ?_⟩
    intro hsess
    cases hsess
    rfl

theorem C8_paused_is_sticky_witness :
    (session_pause ⟨AppState.Active, true, []⟩).1.state = AppState.Paused ∧
    (session_close ⟨AppState.Paused, false, [2]⟩ StopPolicy.Immediately).1 =
      ⟨AppState.Paused, false, [2]⟩ ∧
    (session_close ⟨AppState.Active, true, []⟩ StopPolicy.Immediately).1.state =
      AppState.Inactive ∧
    (session_close ⟨AppState.Active, true, []⟩ StopPolicy.AfterChangesUploaded).1.state =
      AppState.Dying :=
  ⟨C8_paused_is_sticky.1 ⟨AppState.Active, true, []⟩ (by decide),
    (C8_paused_is_sticky.2.1 ⟨AppState.Paused, false, [2]⟩ rfl).2.1,
    (C8_paused_is_sticky.2.2.2 ⟨AppState.Active, true, []⟩ rfl).1,
    (C8_paused_is_sticky.2.2.2 ⟨AppState.Active, true, []⟩ rfl).2 rfl⟩

end RealmSync

namespace RealmSync

/-- How a queued asynchronous write completes when its closure is run
(`Realm::run_writes`): a commit grouped with successors, a commit demanding a
barrier (`allow_grouping = false`), or no commit (rollback of the open write). -/
inductive CommitOutcome
  | commitGrouped
  | commitBarrier
  | rollback
  deriving Repr, DecidableEq

/-- Observable behavior of the user closure of one queued write. -/
inductive WriterBehavior
  | throwsExn
  | completes (outcome : CommitOutcome)
  deriving Repr, DecidableEq

/-- One entry of `m_async_write_q` (`Realm::AsyncWriteDesc`). -/
structure AsyncWriteDesc where
  handle : Nat
  notify_only : Bool
  behavior : WriterBehavior
  deriving Repr, DecidableEq

/-- Errors thrown by the transaction entry points
(`InvalidTransactionException`). -/
inductive TxnError
  | beginInsideCommitCompletion
  | noRunLoop
  deriving Repr, DecidableEq

/-- The part of `Realm` state read by `async_begin_transaction`. -/
structure RealmWriteState where
  is_running_async_commit_completions : Bool
  can_invoke : Bool
  async_write_q : List AsyncWriteDesc
  next_handle : Nat
  deriving Repr, DecidableEq

/-- Embedding of `Realm::async_begin_transaction`: called from inside an
async-commit completion callback it throws, before the request is queued, so
the state — in particular the write queue — is returned unchanged. -/
def async_begin_transaction (s : RealmWriteState) (notifyOnly : Bool)
    (behavior : WriterBehavior) : RealmWriteState × Except TxnError Nat :=
  if s.is_running_async_commit_completions then
    (s, Except.error TxnError.beginInsideCommitCompletion)
  else if s.can_invoke = false then
    (s, Except.error TxnError.noRunLoop)
  else
    ({ s with
        async_write_q := s.async_write_q ++ [⟨s.next_handle, notifyOnly, behavior⟩]
        next_handle := s.next_handle + 1 },
      Except.ok s.next_handle)

/-- Events observable while `Realm::run_writes` drains the write queue. -/
inductive WriteEvent
  | began (h : Nat)
  | rolledBack (h : Nat)
  | exceptionRouted (h : Nat)
  | committed (h : Nat)
  | endedWrite
  deriving Repr, DecidableEq

/-- Result of one `run_writes` pass: the event trace, the remaining
`m_async_write_q`, and the handle whose exception propagated out of
`run_writes` (when no async exception handler is installed). -/
structure RunWritesResult where
  events : List WriteEvent
  queue : List AsyncWriteDesc
  thrown : Option Nat
  deriving Repr, DecidableEq

/-- Embedding of the loop of `Realm::run_writes`.  `hasExnHandler` is whether
`m_async_exception_handler` is installed; `limit` is the remaining
`run_limit` (20 commits without a full sync to disk).  Each iteration begins
the write (`do_begin_transaction`), dequeues the writer and runs it: a throwing
writer has its transaction rolled back (`transaction::cancel`) and is handled
per `hasExnHandler`; a notify-only writer leaves the pass with the transaction
open; otherwise a commit decrements the limit (breaking at zero), a barrier
commit breaks, and a writer that did not commit is rolled back.  The model
assumes the closure neither closes the Realm nor releases the write mutex. -/
def run_writes_loop (hasExnHandler : Bool) : Nat → List AsyncWriteDesc → RunWritesResult
  | _, [] => ⟨[WriteEvent.endedWrite], [], none⟩
  | limit, d :: rest =>
    match d.behavior with
    | WriterBehavior.throwsExn =>
      if hasExnHandler then
        let r := run_writes_loop hasExnHandler limit rest
        ⟨WriteEvent.began d.handle :: WriteEvent.rolledBack d.handle ::
            WriteEvent.exceptionRouted d.handle :: r.events, r.queue, r.thrown⟩
      else
        ⟨[WriteEvent.began d.handle, WriteEvent.rolledBack d.handle,
          WriteEvent.endedWrite], rest, some d.handle⟩
    | WriterBehavior.completes outcome =>
      if d.notify_only then ⟨[WriteEvent.began d.handle], rest, none⟩
      else
        match outcome with
        | CommitOutcome.commitGrouped =>
          if limit ≤ 1 then
            ⟨[WriteEvent.began d.handle, WriteEvent.committed d.handle,
              WriteEvent.endedWrite], rest, none⟩
          else
            let r := run_writes_loop hasExnHandler (limit - 1) rest
            ⟨WriteEvent.began d.handle :: WriteEvent.committed d.handle :: r.events,
              r.queue, r.thrown⟩
        | CommitOutcome.commitBarrier =>
          ⟨[WriteEvent.began d.handle, WriteEvent.committed d.handle,
            WriteEvent.endedWrite], rest, none⟩
        | CommitOutcome.rollback =>
          let r := run_writes_loop hasExnHandler limit rest
          ⟨WriteEvent.began d.handle :: WriteEvent.rolledBack d.handle :: r.events,
            r.queue, r.thrown⟩

/-- One full `Realm::run_writes` pass (`run_limit` starts at 20). -/
def run_writes (hasExnHandler : Bool) (q : List AsyncWriteDesc) : RunWritesResult :=
  run_writes_loop hasExnHandler 20 q

theorem run_writes_loop_began_head (hh : Bool) (limit : Nat) (e : AsyncWriteDesc)
    (rest : List AsyncWriteDesc) :
    WriteEvent.began e.handle ∈ (run_writes_loop hh limit (e :: rest)).events := by
  unfold run_writes_loop
  rcases e with ⟨h, nb, beh⟩
  cases beh with
  | throwsExn => split_ifs <;> simp
  | completes outcome => cases outcome <;> split_ifs <;> simp

theorem run_writes_loop_throw_with_handler (limit : Nat) (d : AsyncWriteDesc)
    (rest : List AsyncWriteDesc) (hbeh : d.behavior = WriterBehavior.throwsExn) :
    run_writes_loop true limit (d :: rest) =
      ⟨WriteEvent.began d.handle :: WriteEvent.rolledBack d.handle ::
          WriteEvent.exceptionRouted d.handle ::
          (run_writes_loop true limit rest).events,
        (run_writes_loop true limit rest).queue,
        (run_writes_loop true limit rest).thrown⟩ := by
  rcases d with ⟨h, nb, beh⟩
  cases hbeh
  rfl

theorem run_writes_loop_throw_no_handler (limit : Nat) (d : AsyncWriteDesc)
    (rest : List AsyncWriteDesc) (hbeh : d.behavior = WriterBehavior.throwsExn) :
    run_writes_loop false limit (d :: rest) =
      ⟨[WriteEvent.began d.handle, WriteEvent.rolledBack d.handle,
        WriteEvent.endedWrite], rest, some d.handle⟩ := by
  rcases d with ⟨h, nb, beh⟩
  cases hbeh
  rfl

/-- C9: `async_begin_transaction` called from inside an async-commit completion
callback throws, leaving the write queue unchanged; a queued writer that
throws has its write transaction rolled back and its entry dequeued — with an
installed async exception handler the exception is routed to it and the next
queued writer still runs (its `began` event occurs), without one the current
write is ended and the exception propagates with the rest of the queue
intact. -/
theorem C9_async_write_exceptions :
    (∀ (s : RealmWriteState) (nb : Bool) (beh : WriterBehavior),
      s.is_running_async_commit_completions = true →
      async_begin_transaction s nb beh =
        (s, Except.error TxnError.beginInsideCommitCompletion)) ∧
    (∀ (limit : Nat) (d : AsyncWriteDesc) (rest : List AsyncWriteDesc),
      d.behavior = WriterBehavior.throwsExn →
      run_writes_loop true limit (d :: rest) =
        ⟨WriteEvent.began d.handle :: WriteEvent.rolledBack d.handle ::
            WriteEvent.exceptionRouted d.handle ::
            (run_writes_loop true limit rest).events,
          (run_writes_loop true limit rest).queue,
          (run_writes_loop true limit rest).thrown⟩) ∧
    (∀ (limit : Nat) (d : AsyncWriteDesc) (rest : List AsyncWriteDesc),
      d.behavior = WriterBehavior.throwsExn →
      run_writes_loop false limit (d :: rest) =
        ⟨[WriteEvent.began d.handle, WriteEvent.rolledBack d.handle,
          WriteEvent.endedWrite], rest, some d.handle⟩) ∧
    (∀ (limit : Nat) (d e : AsyncWriteDesc) (rest : List AsyncWriteDesc),
      d.behavior = WriterBehavior.throwsExn →
      WriteEvent.began e.handle ∈ (run_writes_loop true limit (d :: e :: rest)).events) := by
  refine ⟨?_, ?_, ?_, ?_⟩
  · intro s nb beh h
    unfold async_begin_transaction
    rw [if_pos h]
  · exact run_writes_loop_throw_with_handler
  · exact run_writes_loop_throw_no_handler
  · intro limit d e rest hbeh
    rw [run_writes_loop_throw_with_handler limit d (e :: rest) hbeh]
    have hmem := run_writes_loop_began_head true limit e rest
    simp only [List.mem_cons]
    tauto

theorem C9_async_write_exceptions_witness :
    async_begin_transaction ⟨true, true, [], 4⟩ false
        (WriterBehavior.completes CommitOutcome.commitGrouped) =
      (⟨true, true, [], 4⟩, Except.error TxnError.beginInsideCommitCompletion) ∧
    run_writes_loop false 20
        [⟨1, false, WriterBehavior.throwsExn⟩,
          ⟨2, false, WriterBehavior.completes CommitOutcome.commitGrouped⟩] =
      ⟨[WriteEvent.began 1, WriteEvent.rolledBack 1, WriteEvent.endedWrite],
        [⟨2, false, WriterBehavior.completes CommitOutcome.commitGrouped⟩], some 1⟩ ∧
    WriteEvent.began 2 ∈ (run_writes_loop true 20
        [⟨1, false, WriterBehavior.throwsExn⟩,
          ⟨2, false, WriterBehavior.completes CommitOutcome.commitGrouped⟩]).events :=
  ⟨C9_async_write_exceptions.1 ⟨true, true, [], 4⟩ false
      (WriterBehavior.completes CommitOutcome.commitGrouped) rfl,
    C9_async_write_exceptions.2.2.1 20 ⟨1, false, WriterBehavior.throwsExn⟩
      [⟨2, false, WriterBehavior.completes CommitOutcome.commitGrouped⟩] rfl,
    C9_async_write_exceptions.2.2.2 20 ⟨1, false, WriterBehavior.throwsExn⟩
      ⟨2, false, WriterBehavior.completes CommitOutcome.commitGrouped⟩ [] rfl⟩

end RealmSync

namespace RealmSync

/-- One session enlisted to send, as seen by the dispatcher: its identifier and
whether `Session::send_message()` actually writes a message when offered the
slot (an enlisted session may elect to send nothing). -/
structure EnlistedSession where
  ident : Nat
  wants_to_send : Bool
  deriving Repr, DecidableEq

/-- The loop of `Connection::send_next_message` over
`m_sessions_enlisted_to_send`: sessions are popped in FIFO order until one
writes a message (raising `m_sending`); first component the identifiers
offered the slot in order, then the session that sent (if any) and the
remaining queue. -/
def serve_enlisted :
    List EnlistedSession → List Nat × Option Nat × List EnlistedSession
  | [] => ([], none, [])
  | e :: rest =>
    if e.wants_to_send then ([e.ident], some e.ident, rest)
    else
      let r := serve_enlisted rest
      (e.ident :: r.1, r.2.1, r.2.2)

/-- Outcome of one `send_next_message` dispatch. -/
inductive SendChoice
  | sentPing
  | servedSessions (polled : List Nat) (sender : Option Nat)
  deriving Repr, DecidableEq

/-- Embedding of `Connection::send_next_message`: a pending PING
(`m_send_ping`) always takes the freed write slot; only with no PING pending
are the enlisted sessions served from the FIFO. -/
def send_next_message (sendPing : Bool) (q : List EnlistedSession) :
    SendChoice × List EnlistedSession :=
  if sendPing then (SendChoice.sentPing, q)
  else
    let r := serve_enlisted q
    (SendChoice.servedSessions r.1 r.2.1, r.2.2)

theorem serve_enlisted_fifo (q : List EnlistedSession) :
    serve_enlisted q =
      ((q.takeWhile (fun e => !e.wants_to_send)).map EnlistedSession.ident ++
          ((q.find? (fun e => e.wants_to_send)).map EnlistedSession.ident).toList,
        (q.find? (fun e => e.wants_to_send)).map EnlistedSession.ident,
        (q.dropWhile (fun e => !e.wants_to_send)).drop 1) := by
  induction q with
  | nil => rfl
  | cons e rest ih =>
    unfold serve_enlisted
    rcases hw : e.wants_to_send
    · simp [List.takeWhile_cons, List.dropWhile_cons, List.find?_cons, hw, ih]
    · simp [List.takeWhile_cons, List.dropWhile_cons, List.find?_cons, hw]

/-- C10: whenever the write slot becomes free and a PING is due, the PING is
sent before any enlisted session's message (the enlist queue is untouched);
sessions are served from the FIFO only when no PING is pending, in enlist
order: the slot is offered to the sessions that enlisted first (which may
decline) and taken by the first willing one, the remainder keeping their
places. -/
theorem C10_ping_takes_priority :
    (∀ q : List EnlistedSession, send_next_message true q = (SendChoice.sentPing, q)) ∧
    (∀ q : List EnlistedSession,
      send_next_message false q =
        (SendChoice.servedSessions
            ((q.takeWhile (fun e => !e.wants_to_send)).map EnlistedSession.ident ++
              ((q.find? (fun e => e.wants_to_send)).map EnlistedSession.ident).toList)
            ((q.find? (fun e => e.wants_to_send)).map EnlistedSession.ident),
          (q.dropWhile (fun e => !e.wants_to_send)).drop 1)) := by
  constructor
  · intro q
    rfl
  · intro q
    unfold send_next_message
    rw [serve_enlisted_fifo q]
    rfl

end RealmSync
